import Mathlib

/-!
Shallow embedding of the Jarvis backend session core (`src/backend/main.py`)
and the service helpers the spec's claims refer to
(`services/infrence/llm_service.py`, `services/memory/memory_service.py`).

Times are modelled in deciseconds as integers: `PAUSE_THRESHOLD = 2 s = 20`,
`SILENCE_THRESHOLD = 3 s = 30`, and the watcher-forcing backdate
`now - PAUSE_THRESHOLD - 0.1 s` becomes `now - 20 - 1`.

Python dicts are insertion-ordered association lists; Python sets are
duplicate-free lists grown with `setAdd`.  The asyncio tasks of one session
(provider-event pump, pause watcher, client-audio loop) interleave only at
`await` points, so each maximal await-free block of the Python code becomes
one atomic step of the labelled transition system `Step` below.
-/

namespace Jarvis

/-- A Python dict from segment id to segment text, in insertion order. -/
abbrev SegMap := List (Nat × String)

/-- `d[k] = v` on a Python dict: an existing key keeps its position, a new
key is appended. -/
def dictUpdateOne (d : SegMap) (k : Nat) (v : String) : SegMap :=
  if k ∈ d.map Prod.fst then
    d.map (fun p => if p.1 = k then (k, v) else p)
  else d ++ [(k, v)]

/-- `d.update(upd)` on Python dicts. -/
def dictUpdate (d : SegMap) (upd : SegMap) : SegMap :=
  upd.foldl (fun acc p => dictUpdateOne acc p.1 p.2) d

/-- `s.add(x)` on a Python set. -/
def setAdd (s : List Nat) (x : Nat) : List Nat :=
  if x ∈ s then s else s ++ [x]

/-- `a.update(b)` on Python sets. -/
def setUnion (a b : List Nat) : List Nat := b.foldl setAdd a

/-- `" ".join(d.values())` — main.py line 319. -/
def renderText (d : SegMap) : String :=
  String.intercalate " " (d.map Prod.snd)

/-- Leading-whitespace removal on a character list. -/
def dropLeadingWs : List Char → List Char
  | [] => []
  | c :: cs => if c = ' ' ∨ c = '\t' ∨ c = '\n' ∨ c = '\r' then dropLeadingWs cs else c :: cs

/-- Python's `str.strip()`: the string without leading and trailing
whitespace.  The code only ever tests the result for truthiness
(non-emptiness). -/
def pyStrip (s : String) : String :=
  String.mk (dropLeadingWs (dropLeadingWs s.data.reverse).reverse)

/-- The `Utterance` object of main.py lines 23-32.  `start_time` plays no
role in any claim and is omitted; all other attributes are kept. -/
structure Utt where
  id : Nat
  segments : SegMap
  segment_ids : List Nat
  text : String
  response : String
  processed : Bool
  endTime : Option Int
deriving Repr, DecidableEq

/-- `Utterance(n)`: fresh accumulator, main.py lines 24-32. -/
def freshUtt (n : Nat) : Utt :=
  { id := n, segments := [], segment_ids := [], text := "", response := "",
    processed := false, endTime := none }

/-- The `new_segments` dict built by the filtering loop of main.py
lines 305-311: batch entries whose id is already in the session ledger are
dropped, the rest go into a fresh dict. -/
def buildNewSegments (batch : SegMap) (ledger : List Nat) : SegMap :=
  batch.foldl (fun acc p => if p.1 ∈ ledger then acc else dictUpdateOne acc p.1 p.2) []

/-- The `current_utterance.segment_ids.add(segment_id)` calls inside the same
loop (main.py line 313), folded over the batch. -/
def claimIds (ids : List Nat) (batch : SegMap) (ledger : List Nat) : List Nat :=
  batch.foldl (fun s p => if p.1 ∈ ledger then s else setAdd s p.1) ids

/-- Segment application, main.py lines 304-319: filter the batch against the
ledger, claim the surviving ids, merge the surviving segments into the
utterance's dict, and recompute the text as the space-join of the dict's
values in insertion order. -/
def applySegments (u : Utt) (batch : SegMap) (ledger : List Nat) : Utt :=
  let segs := dictUpdate u.segments (buildNewSegments batch ledger)
  { u with segment_ids := claimIds u.segment_ids batch ledger,
           segments := segs,
           text := renderText segs }

/-- A `ConversationTurn` record (main.py lines 65-68). -/
structure Turn where
  utterance : String
  response : String
  timestamp : Int
deriving Repr, DecidableEq

/-- Program counter of the pause-watcher task: `idle` while sleeping/polling,
`finalizing uid txt` between marking utterance `uid` processed (with text
snapshot `txt`, main.py lines 144-150) and finishing the turn bookkeeping
after the awaited service calls return (lines 153-196). -/
inductive WatcherSt where
  | idle
  | finalizing (uttId : Nat) (text : String)
deriving Repr, DecidableEq

/-- Program counter of the provider-event pump: `splitting batch arrival`
while suspended in the `await asyncio.sleep(0.2)` of the silence-split path
(main.py line 294), holding the pending batch and its arrival time. -/
inductive PumpSt where
  | idle
  | splitting (batch : SegMap) (arrival : Int)
deriving Repr, DecidableEq

/-- Per-session state: the globals of main.py lines 34-40 restricted to one
session id, the pump-local `last_transcript_time`, the task program
counters, and histories of the messages sent to the client and the audio
frames forwarded to the provider.  `retired` collects every Utterance object
that has been replaced as the session's current utterance (Python keeps them
alive only through references; they are never mutated again except for the
watcher's `response` write, modelled below). -/
structure SessionSt where
  counter : Nat
  current : Utt
  retired : List Utt
  ledger : List Nat
  lastActivity : Int
  history : List Turn
  watcher : WatcherSt
  pump : PumpSt
  lastTranscriptTime : Int
  sent : List String
  audioForwarded : Nat
deriving Repr, DecidableEq

/-- `PAUSE_THRESHOLD = 2` seconds (main.py line 41), in deciseconds. -/
def PAUSE_THRESHOLD : Int := 20

/-- `SILENCE_THRESHOLD = 3` seconds (main.py line 42), in deciseconds. -/
def SILENCE_THRESHOLD : Int := 30

/-- Session-connect initialisation, main.py lines 214-221 and the pump-local
initialisation at line 267, with the connect instant as time 0. -/
def initSession : SessionSt :=
  { counter := 0, current := freshUtt 0, retired := [], ledger := [],
    lastActivity := 0, history := [], watcher := .idle, pump := .idle,
    lastTranscriptTime := 0, sent := [], audioForwarded := 0 }

/-- `utterance_counter[sid] += 1; current_utterances[sid] = Utterance(counter)`
(main.py lines 192-193 and 297-298): the old current object is superseded. -/
def retireAndFresh (s : SessionSt) : SessionSt :=
  { s with counter := s.counter + 1,
           retired := s.retired ++ [s.current],
           current := freshUtt (s.counter + 1) }

/-- The tail of the pump's segment-batch handler, main.py lines 302-325:
record the batch arrival time in `last_transcript_time`, apply the segments
to the current utterance, refresh `last_activity`, and send the recomputed
utterance text to the client. -/
def applyBlock (s : SessionSt) (batch : SegMap) (arrival applyTime : Int) : SessionSt :=
  let u := applySegments s.current batch s.ledger
  { s with current := u,
           lastTranscriptTime := arrival,
           lastActivity := applyTime,
           sent := s.sent ++ [u.text] }

/-- The pump's handling of one `segments` event arriving at `now`, up to its
first suspension point (main.py lines 281-325).  If the silence gap is
exceeded and the current utterance has non-blank text: when the utterance is
not yet processed the code only sets its `end_time`, backdates
`last_activity` past the pause threshold to goad the watcher, and suspends
for 0.2 s (the batch is held in `PumpSt.splitting`); when it is already
processed the code immediately replaces it with a fresh utterance and
applies the batch.  Otherwise the batch is applied directly. -/
def recvBatch (s : SessionSt) (batch : SegMap) (now : Int) : SessionSt :=
  if now - s.lastTranscriptTime > SILENCE_THRESHOLD ∧ pyStrip s.current.text ≠ "" then
    if s.current.processed = false then
      { s with current := { s.current with endTime := some now },
               lastActivity := now - PAUSE_THRESHOLD - 1,
               pump := .splitting batch now }
    else
      applyBlock (retireAndFresh s) batch now now
  else
    applyBlock s batch now now

/-- The pump resuming from the 0.2 s sleep at time `now` (main.py lines
296-325): unconditionally supersede the current utterance — whether or not
the watcher got to finalize it — then apply the held batch to the fresh one. -/
def pumpResume (s : SessionSt) (now : Int) : SessionSt :=
  match s.pump with
  | .idle => s
  | .splitting batch arrival =>
      applyBlock (retireAndFresh { s with pump := .idle }) batch arrival now

/-- One wake-up of the pause watcher, main.py lines 138-150: if the session
has been idle past the pause threshold and the current utterance is
unprocessed with non-blank text, atomically mark it processed, stamp its end
time, and capture it (with its text snapshot) for the awaited turn
processing; otherwise go back to sleep unchanged. -/
def watcherCheck (s : SessionSt) (now : Int) : SessionSt :=
  if now - s.lastActivity ≥ PAUSE_THRESHOLD ∧ s.current.processed = false
      ∧ pyStrip s.current.text ≠ "" then
    { s with current := { s.current with processed := true, endTime := some now },
             watcher := .finalizing s.current.id s.current.text }
  else s

/-- Write `utterance.response = r` through the reference captured by the
watcher (main.py line 172); the object may still be current or already
superseded, and utterance ids are unique, so it is located by id. -/
def setRespUtt (u : Utt) (uid : Nat) (r : String) : Utt :=
  if u.id = uid then { u with response := r } else u

/-- `setRespUtt` applied across all live Utterance objects of the session. -/
def setResponseById (s : SessionSt) (uid : Nat) (r : String) : SessionSt :=
  { s with current := setRespUtt s.current uid r,
           retired := s.retired.map (fun u => setRespUtt u uid r) }

/-- The `utterance.segment_ids` read through the watcher's captured
reference (main.py line 189). -/
def findClaimed (s : SessionSt) (uid : Nat) : List Nat :=
  if s.current.id = uid then s.current.segment_ids
  else ((s.retired.find? (fun u => u.id == uid)).map Utt.segment_ids).getD []

/-- The watcher's post-await bookkeeping for the turn whose reply text is
`response`, main.py lines 171-196: store the response on the captured
utterance, append a ConversationTurn, merge the captured utterance's claimed
ids into the session ledger, and unconditionally replace the session's
current utterance (whatever it now is) with a fresh one at `counter + 1`. -/
def watcherFinish (s : SessionSt) (now : Int) (response : String) : SessionSt :=
  match s.watcher with
  | .idle => s
  | .finalizing uid text =>
      let claimed := findClaimed s uid
      let s1 := setResponseById s uid response
      retireAndFresh
        { s1 with history := s1.history ++ [⟨text, response, now⟩],
                  ledger := setUnion s1.ledger claimed,
                  watcher := .idle }

/-- One pass of the client-audio loop, main.py lines 239-241: receive a
binary frame and forward it to the provider.  No session field — in
particular not `last_activity` — is touched. -/
def audioFrame (s : SessionSt) : SessionSt :=
  { s with audioForwarded := s.audioForwarded + 1 }

/-- The atomic steps of one session, labelled with the wall-clock instant at
which the step runs.  The pump can receive a batch only while not suspended
in the silence-split sleep, and can resume only from that sleep; the watcher
can poll only while idle and can finish only a capture in flight. -/
inductive Step : Int → SessionSt → SessionSt → Prop
  | recv {s : SessionSt} (batch : SegMap) (now : Int) (h : s.pump = .idle) :
      Step now s (recvBatch s batch now)
  | resume {s : SessionSt} (now : Int) (batch : SegMap) (arrival : Int)
      (h : s.pump = .splitting batch arrival) :
      Step now s (pumpResume s now)
  | check {s : SessionSt} (now : Int) (h : s.watcher = .idle) :
      Step now s (watcherCheck s now)
  | finish {s : SessionSt} (now : Int) (response : String) (uid : Nat) (text : String)
      (h : s.watcher = .finalizing uid text) :
      Step now s (watcherFinish s now response)
  | audio {s : SessionSt} (now : Int) :
      Step now s (audioFrame s)

/-- States of one session reachable from connect time under any
interleaving of the tasks, with non-decreasing step times. -/
inductive Reachable : Int → SessionSt → Prop
  | init : Reachable 0 initSession
  | step {t t' : Int} {s s' : SessionSt} :
      Reachable t s → t ≤ t' → Step t' s s' → Reachable t' s'

/-- Every Utterance object of the session that is still referenced. -/
def allUtts (s : SessionSt) : List Utt := s.current :: s.retired

/-- Steps in which the silence-split condition of main.py line 286 does not
fire: the batch arrives within the silence threshold of the previous one, or
the current utterance text is blank. -/
inductive TameStep : SessionSt → SessionSt → Prop
  | recv {s : SessionSt} (batch : SegMap) (now : Int) (hp : s.pump = .idle)
      (hq : ¬(now - s.lastTranscriptTime > SILENCE_THRESHOLD ∧ pyStrip s.current.text ≠ "")) :
      TameStep s (recvBatch s batch now)
  | check {s : SessionSt} (now : Int) (h : s.watcher = .idle) :
      TameStep s (watcherCheck s now)
  | finish {s : SessionSt} (now : Int) (response : String) (uid : Nat) (text : String)
      (h : s.watcher = .finalizing uid text) :
      TameStep s (watcherFinish s now response)
  | audio {s : SessionSt} :
      TameStep s (audioFrame s)

/-- Reachability when no silence split ever fires. -/
inductive ReachableTame : SessionSt → Prop
  | init : ReachableTame initSession
  | step {s s' : SessionSt} : ReachableTame s → TameStep s s' → ReachableTame s'

/-- Finitely many session steps, taken at arbitrary instants, leading from
one state to another: the runs over which the ledger guarantee is stated
(every suffix of a reachable execution is such a run). -/
inductive StepsFrom : SessionSt → SessionSt → Prop
  | refl (s : SessionSt) : StepsFrom s s
  | tail {s s' s'' : SessionSt} (t : Int) :
      StepsFrom s s' → Step t s' s'' → StepsFrom s s''

/-- The `{memory_type, date_from, date_to}` dict produced by
`extract_retrieval_filters` (llm_service.py), with null-able fields. -/
structure Filters where
  memory_type : Option String
  date_from : Option String
  date_to : Option String
deriving Repr, DecidableEq

/-- One formatted memory dict as returned by `retrieve_memory_from_db`
(memory_service.py lines 110-117). -/
structure MemRec where
  id : String
  title : String
  mtype : String
  content : String
  memory_metadata : String
  created_at : String
deriving Repr, DecidableEq

/-- The dict returned by `process_transcription` (main.py lines 83-132):
one shape per branch, plus the `{"error": msg}` dict of the handler at
line 132. -/
inductive PTResult where
  | save (mtype content title meta : String)
  | retrieveRes (query : String) (filters : Filters) (results : List MemRec)
  | neither
  | errorRes (msg : String)
deriving Repr, DecidableEq

/-- Outcomes of the external service calls made by one turn, in the order
`process_transcription` makes them.  Each field is the call's result:
`.ok` a value, `.error` an exception message.  `parseISO` stands for
`datetime.fromisoformat`, which raises on malformed input. -/
structure TurnOracle where
  detectIntent : Except String String
  classify : Except String String
  summarize : Except String String
  titleGen : Except String String
  metadataExtract : Except String String
  saveMem : Except String Unit
  extractFilters : Except String Filters
  parseISO : String → Except String Int
  retrieveMems : Except String (List MemRec)

/-- `process_transcription` (main.py lines 70-132): branch on the detected
intent, perform the branch's service calls, and catch every exception into
an `{"error": ...}` result.  The function is total: no outcome of the
oracle escapes it. -/
def process_transcription (o : TurnOracle) (text : String) : PTResult :=
  let run : Except String PTResult := do
    let intent ← o.detectIntent
    if intent = "Save" then
      let c ← o.classify
      let su ← o.summarize
      let ti ← o.titleGen
      let me ← o.metadataExtract
      let _ ← o.saveMem
      pure (PTResult.save c su ti me)
    else if intent = "Retrieve" then
      let f ← o.extractFilters
      let _df ← match f.date_from with
        | some d => Except.map some (o.parseISO d)
        | none => pure none
      let _dt ← match f.date_to with
        | some d => Except.map some (o.parseISO d)
        | none => pure none
      let mems ← o.retrieveMems
      pure (PTResult.retrieveRes text f mems)
    else
      pure PTResult.neither
  match run with
  | .ok r => r
  | .error e => PTResult.errorRes e

/-- The `result` dict as consumed by the reply generators through `.get`
with defaults: every field may be absent. -/
structure GcrInput where
  intent : Option String
  mtype : Option String
  title : Option String
  content : Option String
  query : Option String
  results : Option (List MemRec)
deriving Repr, DecidableEq

/-- How each `process_transcription` result reads as a `.get`-accessed dict
(dict keys per main.py lines 83-128; the error dict carries no `intent`
key). -/
def toGcrInput : PTResult → GcrInput
  | .save ty co ti _ => ⟨some "Save", some ty, some ti, some co, none, none⟩
  | .retrieveRes q _ ms => ⟨some "Retrieve", none, none, none, some q, some ms⟩
  | .neither => ⟨some "Neither", none, none, none, none, none⟩
  | .errorRes _ => ⟨none, none, none, none, none, none⟩

/-- The fixed no-matching-memories reply, letter for letter the string of
llm_service.py lines 241 and 286. -/
def apologyReply : String :=
  "I searched your memories but couldn't find anything matching your request. Is there something else I can help you with?"

/-- The unknown-intent fallback of llm_service.py line 262. -/
def unknownIntentReply : String :=
  "I'm not sure how to respond to that. How can I help you today?"

/-- System prompt of the `Neither` branch (llm_service.py line 209). -/
def sysNeither : String :=
  "You are Jarvis, a helpful and friendly AI assistant. Respond conversationally to the user's message."

/-- System prompt of the `Save` branch (llm_service.py line 227). -/
def sysSave (mtype title : String) : String :=
  "You are Jarvis, a helpful AI assistant. The user just shared something that was saved as a "
    ++ mtype ++ " with the title '" ++ title
    ++ "'. Acknowledge this briefly in a friendly way and respond to their input conversationally."

/-- System prompt of the `Retrieve` branch (llm_service.py line 254). -/
def sysRetrieve : String :=
  "You are Jarvis, a helpful AI assistant with access to the user's memory database. The user asked a question, and you've retrieved some relevant memories. Using ONLY the provided memories, respond conversationally as if you're having a natural discussion. Don't mention the technical aspects of memory retrieval - just incorporate the information naturally."

/-- The `memory_context` join of llm_service.py lines 244-247. -/
def memoryContext (ms : List MemRec) : String :=
  String.intercalate "\n\n"
    (ms.map fun m => "Memory: " ++ m.title ++ "\nType: " ++ m.mtype ++ "\nContent: " ++ m.content)

/-- The retrieval prompt of llm_service.py line 256. -/
def retrievePrompt (query ctx : String) : String :=
  "User query: " ++ query ++ "\n\nRetrieved memories:\n" ++ ctx

/-- The Language Service's chat completion call: two role-tagged prompts in,
either a reply or an exception. -/
structure ChatOracle where
  chat : String → String → Except String String

/-- `generate_conversational_response` (llm_service.py lines 195-262):
branch on the result's intent (default `Neither`), with the Retrieve branch
short-circuiting to the fixed apology when no memories matched.  The chat
call may raise; the function itself adds no handler. -/
def generate_conversational_response (g : ChatOracle) (result : GcrInput)
    (original_text : String) : Except String String :=
  let intent := result.intent.getD "Neither"
  if intent = "Neither" then
    g.chat sysNeither original_text
  else if intent = "Save" then
    g.chat (sysSave (result.mtype.getD "memory") (result.title.getD "your thought"))
      (result.content.getD "")
  else if intent = "Retrieve" then
    let memories := result.results.getD []
    if memories.isEmpty then .ok apologyReply
    else g.chat sysRetrieve (retrievePrompt (result.query.getD "") (memoryContext memories))
  else .ok unknownIntentReply

/-- Result of the streaming generator, llm_service.py lines 264-307: either
one pre-built whole string (the degenerate Retrieve-empty case, line 286)
or an incremental token stream opened with the given prompts (line 297). -/
inductive StreamReply where
  | whole (s : String)
  | streamStarted (sys user : String)
deriving Repr, DecidableEq

/-- `generate_conversational_response_streaming` (llm_service.py lines
264-307): same prompt selection, but every branch opens a token stream —
including the unknown-intent one, with empty prompts — except the
Retrieve-with-no-memories case, which returns the apology string whole. -/
def generate_conversational_response_streaming (result : GcrInput)
    (original_text : String) : StreamReply :=
  let intent := result.intent.getD "Neither"
  if intent = "Neither" then
    .streamStarted sysNeither original_text
  else if intent = "Save" then
    .streamStarted (sysSave (result.mtype.getD "memory") (result.title.getD "your thought"))
      (result.content.getD "")
  else if intent = "Retrieve" then
    let memories := result.results.getD []
    if memories.isEmpty then .whole apologyReply
    else .streamStarted sysRetrieve (retrievePrompt (result.query.getD "") (memoryContext memories))
  else .streamStarted "" ""

/-- Outcome of one guarded finalize pass of the pause watcher for a
non-blank unprocessed utterance: either the loop continues into its next
sleep with the turn recorded, or an exception reached the loop-level
handler of main.py line 200 and the `while True` loop is gone. -/
inductive IterOutcome where
  | continued (t : Turn)
  | exited (err : String)
deriving Repr, DecidableEq

/-- The per-turn body of `finalize_after_pause` (main.py lines 149-196) at
the dataflow level: `process_transcription` swallows every service
exception into its result dict, but the `generate_conversational_response`
call at line 168 sits outside that handler, so its exception propagates to
the loop-level `except` and ends the watcher loop. -/
def finalizeTurn (o : TurnOracle) (g : ChatOracle) (text : String) (now : Int) : IterOutcome :=
  let result := process_transcription o text
  match generate_conversational_response g (toGcrInput result) text with
  | .ok resp => .continued ⟨text, resp, now⟩
  | .error e => .exited e

/-- Whether the pause watcher is still looping after the pass. -/
def watcherAlive : IterOutcome → Bool
  | .continued _ => true
  | .exited _ => false

/-- A stored memory row as the Memory Store holds it
(models/memory_model.py): embedding vectors are integer lists, creation
times integers. -/
structure MemRow where
  id : String
  title : String
  mtype : String
  content : String
  memory_metadata : String
  created_at : Int
  user_id : String
  vector : List Int
deriving Repr, DecidableEq

/-- Squared L2 distance between embedding vectors (the SQL
`vector.l2_distance` ordering key; squaring preserves the order). -/
def dist2 (a b : List Int) : Int :=
  ((a.zip b).map (fun p => (p.1 - p.2) * (p.1 - p.2))).sum

/-- The WHERE clauses of memory_service.py lines 90-98: user match, then
the optional type and date-range filters. -/
def rowMatches (row : MemRow) (user_id : String) (memory_type : Option String)
    (date_from date_to : Option Int) : Bool :=
  row.user_id == user_id
    && (match memory_type with | some t => row.mtype == t | none => true)
    && (match date_from with | some d => decide (d ≤ row.created_at) | none => true)
    && (match date_to with | some d => decide (row.created_at ≤ d) | none => true)

/-- Insert a row into a list kept sorted by distance to `qv`. -/
def insertByDist (qv : List Int) (r : MemRow) : List MemRow → List MemRow
  | [] => [r]
  | x :: xs =>
      if dist2 qv r.vector ≤ dist2 qv x.vector then r :: x :: xs
      else x :: insertByDist qv r xs

/-- The ORDER BY of memory_service.py line 101: rows sorted by vector
distance to the query embedding, most similar first. -/
def sortByDist (qv : List Int) : List MemRow → List MemRow
  | [] => []
  | x :: xs => insertByDist qv x (sortByDist qv xs)

/-- The result formatting of memory_service.py lines 108-117. -/
def formatRow (r : MemRow) : MemRec :=
  ⟨r.id, r.title, r.mtype, r.content, r.memory_metadata, toString r.created_at⟩

/-- `retrieve_memory_from_db` (memory_service.py lines 71-123) over an
explicit store: embed the query (fallible), filter by user and the optional
type/date filters, order by similarity, limit to `top_k`, format.  The
whole body sits in a `try` whose handler returns `[]`, so an embedding
failure or a database failure (`dbOk = false`) yields the empty list. -/
def retrieve_memory_from_db (store : List MemRow) (embed : Except String (List Int))
    (dbOk : Bool) (user_id : String) (memory_type : Option String)
    (date_from date_to : Option Int) (top_k : Nat) : List MemRec :=
  match embed with
  | .error _ => []
  | .ok qv =>
      if dbOk then
        ((sortByDist qv (store.filter
            (fun r => rowMatches r user_id memory_type date_from date_to))).take top_k).map formatRow
      else []

/-- Insertion into a segment list sorted by ascending id. -/
def insertById (p : Nat × String) : SegMap → SegMap
  | [] => [p]
  | q :: rest => if p.1 ≤ q.1 then p :: q :: rest else q :: insertById p rest

/-- Sort a segment map by ascending segment id. -/
def sortById : SegMap → SegMap
  | [] => []
  | p :: rest => insertById p (sortById rest)

/-- Modelled from the spec's words for comparison with the code's
`renderText`: "the concatenation, in ascending segment-ID order, of its
claimed segments' texts". -/
def specOrderedText (d : SegMap) : String :=
  String.intercalate " " ((sortById d).map Prod.snd)

/-- Inductive invariant behind the at-most-one-unprocessed property: every
superseded utterance is processed, and a watcher capture in flight refers
to the current utterance, already marked processed. -/
def processedInv (s : SessionSt) : Prop :=
  (∀ u ∈ s.retired, u.processed = true) ∧
  (∀ uid txt, s.watcher = .finalizing uid txt →
    s.current.id = uid ∧ s.current.processed = true)

/-- Inductive invariant for the derived-text law: every utterance's `text`
is the space-join of its segment dict's values in insertion order. -/
def textInv (s : SessionSt) : Prop :=
  s.current.text = renderText s.current.segments ∧
  ∀ u ∈ s.retired, u.text = renderText u.segments

/-- Run: a first batch at t = 1.0 s claims segment 1 for utterance 0. -/
abbrev sessA : SessionSt := recvBatch initSession [(1, "hi")] 10

/-- Run: a second batch at t = 5.0 s (gap 4 s > silence threshold, text
non-blank, not processed) puts the pump into the silence-split sleep. -/
abbrev sessB : SessionSt := recvBatch sessA [(1, "hello")] 50

/-- Run: the pump resumes at t = 5.2 s with the watcher never having run in
the window: utterance 0 is superseded unprocessed and the held batch is
applied to fresh utterance 1. -/
abbrev sessC : SessionSt := pumpResume sessB 52

/-- Run: two batches to one utterance with ids arriving out of order. -/
abbrev sessOutOfOrder : SessionSt :=
  recvBatch (recvBatch initSession [(2, "b")] 10) [(1, "a")] 15

/-- Run: an audio frame forwarded at t = 2.0 s on top of `sessA`. -/
abbrev sessAudio : SessionSt := audioFrame sessA

/-- A session whose current utterance is already processed. -/
abbrev sessProcessed : SessionSt :=
  { initSession with
      current := { freshUtt 0 with
        processed := true,
        segments := [(1, "hi")],
        segment_ids := [1],
        text := "hi" } }

/-- A session whose ledger already holds segment id 5, claimed by the
current utterance. -/
abbrev sessClaimed : SessionSt :=
  { initSession with
      ledger := [5],
      current := { freshUtt 0 with
        segments := [(5, "x")],
        segment_ids := [5],
        text := "x" } }

/-- A session whose ledger holds segment id 1 which no live utterance
claims (its claimant was already superseded and merged). -/
abbrev sessLedger : SessionSt := { initSession with ledger := [1] }

/-- A turn oracle in which every service call succeeds and the intent is
`Neither`. -/
abbrev oracleNeither : TurnOracle :=
  ⟨.ok "Neither", .ok "", .ok "", .ok "", .ok "", .ok (), .ok ⟨none, none, none⟩,
    fun _ => .ok 0, .ok []⟩

/-- A turn oracle whose intent-classification call raises. -/
abbrev oracleIntentDown : TurnOracle :=
  { oracleNeither with detectIntent := .error "llm down" }

/-- A chat oracle whose completion call raises. -/
abbrev chatBoom : ChatOracle := ⟨fun _ _ => .error "boom"⟩

/-- A chat oracle whose completion call succeeds with a fixed reply. -/
abbrev chatOk : ChatOracle := ⟨fun _ _ => .ok "Happy to chat!"⟩

/-! ### Projection and unfolding lemmas -/

@[simp] theorem freshUtt_id (n : Nat) : (freshUtt n).id = n := rfl

@[simp] theorem freshUtt_segments (n : Nat) : (freshUtt n).segments = [] := rfl

@[simp] theorem freshUtt_segment_ids (n : Nat) : (freshUtt n).segment_ids = [] := rfl

@[simp] theorem freshUtt_text (n : Nat) : (freshUtt n).text = "" := rfl

@[simp] theorem freshUtt_processed (n : Nat) : (freshUtt n).processed = false := rfl

@[simp] theorem applySegments_id (u : Utt) (batch : SegMap) (ledger : List Nat) :
    (applySegments u batch ledger).id = u.id := rfl

@[simp] theorem applySegments_processed (u : Utt) (batch : SegMap) (ledger : List Nat) :
    (applySegments u batch ledger).processed = u.processed := rfl

@[simp] theorem applySegments_segment_ids (u : Utt) (batch : SegMap) (ledger : List Nat) :
    (applySegments u batch ledger).segment_ids = claimIds u.segment_ids batch ledger := rfl

@[simp] theorem applySegments_segments (u : Utt) (batch : SegMap) (ledger : List Nat) :
    (applySegments u batch ledger).segments
      = dictUpdate u.segments (buildNewSegments batch ledger) := rfl

@[simp] theorem applySegments_text (u : Utt) (batch : SegMap) (ledger : List Nat) :
    (applySegments u batch ledger).text
      = renderText (dictUpdate u.segments (buildNewSegments batch ledger)) := rfl

@[simp] theorem setRespUtt_id (u : Utt) (uid : Nat) (r : String) :
    (setRespUtt u uid r).id = u.id := by
  unfold setRespUtt; split <;> rfl

@[simp] theorem setRespUtt_segment_ids (u : Utt) (uid : Nat) (r : String) :
    (setRespUtt u uid r).segment_ids = u.segment_ids := by
  unfold setRespUtt; split <;> rfl

@[simp] theorem setRespUtt_segments (u : Utt) (uid : Nat) (r : String) :
    (setRespUtt u uid r).segments = u.segments := by
  unfold setRespUtt; split <;> rfl

@[simp] theorem setRespUtt_text (u : Utt) (uid : Nat) (r : String) :
    (setRespUtt u uid r).text = u.text := by
  unfold setRespUtt; split <;> rfl

@[simp] theorem setRespUtt_processed (u : Utt) (uid : Nat) (r : String) :
    (setRespUtt u uid r).processed = u.processed := by
  unfold setRespUtt; split <;> rfl

@[simp] theorem applyBlock_current (s : SessionSt) (batch : SegMap) (a t : Int) :
    (applyBlock s batch a t).current = applySegments s.current batch s.ledger := rfl

@[simp] theorem applyBlock_retired (s : SessionSt) (batch : SegMap) (a t : Int) :
    (applyBlock s batch a t).retired = s.retired := rfl

@[simp] theorem applyBlock_ledger (s : SessionSt) (batch : SegMap) (a t : Int) :
    (applyBlock s batch a t).ledger = s.ledger := rfl

@[simp] theorem applyBlock_watcher (s : SessionSt) (batch : SegMap) (a t : Int) :
    (applyBlock s batch a t).watcher = s.watcher := rfl

@[simp] theorem applyBlock_counter (s : SessionSt) (batch : SegMap) (a t : Int) :
    (applyBlock s batch a t).counter = s.counter := rfl

@[simp] theorem applyBlock_lastActivity (s : SessionSt) (batch : SegMap) (a t : Int) :
    (applyBlock s batch a t).lastActivity = t := rfl

@[simp] theorem applyBlock_history (s : SessionSt) (batch : SegMap) (a t : Int) :
    (applyBlock s batch a t).history = s.history := rfl

@[simp] theorem applyBlock_sent (s : SessionSt) (batch : SegMap) (a t : Int) :
    (applyBlock s batch a t).sent
      = s.sent ++ [(applySegments s.current batch s.ledger).text] := rfl

@[simp] theorem retireAndFresh_current (s : SessionSt) :
    (retireAndFresh s).current = freshUtt (s.counter + 1) := rfl

@[simp] theorem retireAndFresh_retired (s : SessionSt) :
    (retireAndFresh s).retired = s.retired ++ [s.current] := rfl

@[simp] theorem retireAndFresh_ledger (s : SessionSt) :
    (retireAndFresh s).ledger = s.ledger := rfl

@[simp] theorem retireAndFresh_watcher (s : SessionSt) :
    (retireAndFresh s).watcher = s.watcher := rfl

@[simp] theorem retireAndFresh_counter (s : SessionSt) :
    (retireAndFresh s).counter = s.counter + 1 := rfl

@[simp] theorem retireAndFresh_history (s : SessionSt) :
    (retireAndFresh s).history = s.history := rfl

@[simp] theorem audioFrame_eq (s : SessionSt) :
    audioFrame s = { s with audioForwarded := s.audioForwarded + 1 } := rfl

theorem recvBatch_split {s : SessionSt} {batch : SegMap} {now : Int}
    (hc : now - s.lastTranscriptTime > SILENCE_THRESHOLD ∧ pyStrip s.current.text ≠ "")
    (hp : s.current.processed = false) :
    recvBatch s batch now =
      { s with current := { s.current with endTime := some now },
               lastActivity := now - PAUSE_THRESHOLD - 1,
               pump := .splitting batch now } := by
  unfold recvBatch
  rw [if_pos hc, if_pos hp]

theorem recvBatch_split_processed {s : SessionSt} {batch : SegMap} {now : Int}
    (hc : now - s.lastTranscriptTime > SILENCE_THRESHOLD ∧ pyStrip s.current.text ≠ "")
    (hp : ¬s.current.processed = false) :
    recvBatch s batch now = applyBlock (retireAndFresh s) batch now now := by
  unfold recvBatch
  rw [if_pos hc, if_neg hp]

theorem recvBatch_apply {s : SessionSt} {batch : SegMap} {now : Int}
    (hc : ¬(now - s.lastTranscriptTime > SILENCE_THRESHOLD ∧ pyStrip s.current.text ≠ "")) :
    recvBatch s batch now = applyBlock s batch now now := by
  unfold recvBatch
  rw [if_neg hc]

theorem pumpResume_eq {s : SessionSt} {batch : SegMap} {arrival : Int}
    (hp : s.pump = .splitting batch arrival) (now : Int) :
    pumpResume s now = applyBlock (retireAndFresh { s with pump := .idle }) batch arrival now := by
  unfold pumpResume
  rw [hp]

theorem watcherCheck_pos {s : SessionSt} {now : Int}
    (hc : now - s.lastActivity ≥ PAUSE_THRESHOLD ∧ s.current.processed = false
      ∧ pyStrip s.current.text ≠ "") :
    watcherCheck s now =
      { s with current := { s.current with processed := true, endTime := some now },
               watcher := .finalizing s.current.id s.current.text } := by
  unfold watcherCheck
  rw [if_pos hc]

theorem watcherCheck_neg {s : SessionSt} {now : Int}
    (hc : ¬(now - s.lastActivity ≥ PAUSE_THRESHOLD ∧ s.current.processed = false
      ∧ pyStrip s.current.text ≠ "")) :
    watcherCheck s now = s := by
  unfold watcherCheck
  rw [if_neg hc]

theorem watcherFinish_eq {s : SessionSt} {uid : Nat} {txt : String}
    (hw : s.watcher = .finalizing uid txt) (now : Int) (r : String) :
    watcherFinish s now r =
      retireAndFresh
        { setResponseById s uid r with
            history := s.history ++ [⟨txt, r, now⟩],
            ledger := setUnion s.ledger (findClaimed s uid),
            watcher := .idle } := by
  unfold watcherFinish
  rw [hw]
  rfl

@[simp] theorem setResponseById_current (s : SessionSt) (uid : Nat) (r : String) :
    (setResponseById s uid r).current = setRespUtt s.current uid r := rfl

@[simp] theorem setResponseById_retired (s : SessionSt) (uid : Nat) (r : String) :
    (setResponseById s uid r).retired = s.retired.map (fun u => setRespUtt u uid r) := rfl

@[simp] theorem allUtts_def (s : SessionSt) : allUtts s = s.current :: s.retired := rfl

/-! ### Membership lemmas for the set and ledger operations -/

theorem mem_setAdd {x y : Nat} {s : List Nat} (h : x ∈ setAdd s y) : x ∈ s ∨ x = y := by
  unfold setAdd at h
  split at h
  · exact Or.inl h
  · simpa using h

theorem mem_claimIds {x : Nat} {ledger : List Nat} :
    ∀ (batch : SegMap) (ids : List Nat), x ∈ claimIds ids batch ledger → x ∈ ids ∨ x ∉ ledger := by
  intro batch
  induction batch with
  | nil => exact fun ids h => Or.inl h
  | cons p rest ih =>
      intro ids h
      have h' : x ∈ claimIds (if p.1 ∈ ledger then ids else setAdd ids p.1) rest ledger := h
      rcases ih _ h' with h2 | h2
      · by_cases hp : p.1 ∈ ledger
        · rw [if_pos hp] at h2
          exact Or.inl h2
        · rw [if_neg hp] at h2
          rcases mem_setAdd h2 with h3 | h3
          · exact Or.inl h3
          · exact Or.inr (h3 ▸ hp)
      · exact Or.inr h2

theorem not_mem_claimIds_fresh {x : Nat} {ledger : List Nat} (batch : SegMap)
    (hx : x ∈ ledger) : x ∉ claimIds [] batch ledger := fun h =>
  (mem_claimIds batch [] h).elim (fun h0 => by cases h0) (fun h0 => h0 hx)

theorem claimIds_all_mem {ledger : List Nat} :
    ∀ (batch : SegMap), (∀ p ∈ batch, p.1 ∈ ledger) →
      ∀ ids, claimIds ids batch ledger = ids
  | [], _, _ => rfl
  | p :: rest, h, ids => by
      have h1 : claimIds ids (p :: rest) ledger
          = claimIds (if p.1 ∈ ledger then ids else setAdd ids p.1) rest ledger := rfl
      rw [h1, if_pos (h p (List.mem_cons_self p rest)),
        claimIds_all_mem rest (fun q hq => h q (List.mem_cons_of_mem p hq)) ids]

theorem buildNewSegments_all_mem {ledger : List Nat} :
    ∀ (batch : SegMap), (∀ p ∈ batch, p.1 ∈ ledger) → buildNewSegments batch ledger = [] := by
  have key : ∀ (batch : SegMap) (acc : SegMap), (∀ p ∈ batch, p.1 ∈ ledger) →
      batch.foldl (fun acc p => if p.1 ∈ ledger then acc else dictUpdateOne acc p.1 p.2) acc
        = acc := by
    intro batch
    induction batch with
    | nil => exact fun acc _ => rfl
    | cons p rest ih =>
        intro acc h
        rw [List.foldl_cons, if_pos (h p (List.mem_cons_self p rest))]
        exact ih acc (fun q hq => h q (List.mem_cons_of_mem p hq))
  exact fun batch h => key batch [] h

@[simp] theorem dictUpdate_nil (d : SegMap) : dictUpdate d [] = d := rfl

/-! ### Reachability of the concrete runs -/

theorem sessA_reachable : Reachable 10 sessA :=
  Reachable.step Reachable.init (by decide) (Step.recv [(1, "hi")] 10 rfl)

theorem sessC_reachable : Reachable 52 sessC :=
  Reachable.step
    (Reachable.step sessA_reachable (by decide) (Step.recv [(1, "hello")] 50 (by decide)))
    (by decide) (Step.resume 52 [(1, "hello")] 50 (by decide))

theorem sessOutOfOrder_reachable : Reachable 15 sessOutOfOrder :=
  Reachable.step
    (Reachable.step Reachable.init (by decide) (Step.recv [(2, "b")] 10 rfl))
    (by decide) (Step.recv [(1, "a")] 15 (by decide))

/-! ### C5 -/

/-- C5: finalization is idempotent.  A pause-watcher pass over a session
whose current Utterance already has `processed = true` is a no-op — the
guard of main.py line 144 skips the whole finalize body, so there is no
second Turn Processor dispatch, no second ConversationTurn append, no
second ledger merge, and no second counter increment. -/
theorem finalize_idempotent {s : SessionSt} (now : Int)
    (h : s.current.processed = true) : watcherCheck s now = s := by
  apply watcherCheck_neg
  rintro ⟨-, h2, -⟩
  rw [h] at h2
  cases h2

/-- C5 witness: a concrete session with a processed current utterance is
left exactly as it was by a watcher pass. -/
theorem finalize_idempotent_witness : watcherCheck sessProcessed 99 = sessProcessed :=
  finalize_idempotent 99 rfl

/-! ### C10 -/

/-- C10: applying a segment batch every id of which already sits in the
session ledger (and the silence split does not fire) leaves the current
Utterance's segment map, claimed-id set and text unchanged, still moves
`last_activity` to now — postponing pause finalization — and still sends
the current (possibly empty) utterance text to the client
(main.py lines 304-325). -/
theorem duplicate_batch_frame {s : SessionSt} (batch : SegMap) (now : Int)
    (hall : ∀ p ∈ batch, p.1 ∈ s.ledger)
    (hinv : s.current.text = renderText s.current.segments)
    (hns : ¬(now - s.lastTranscriptTime > SILENCE_THRESHOLD ∧ pyStrip s.current.text ≠ "")) :
    (recvBatch s batch now).current.segments = s.current.segments ∧
    (recvBatch s batch now).current.segment_ids = s.current.segment_ids ∧
    (recvBatch s batch now).current.text = s.current.text ∧
    (recvBatch s batch now).lastActivity = now ∧
    (recvBatch s batch now).sent = s.sent ++ [s.current.text] := by
  have hb : buildNewSegments batch s.ledger = [] := buildNewSegments_all_mem batch hall
  have hc : claimIds s.current.segment_ids batch s.ledger = s.current.segment_ids :=
    claimIds_all_mem batch hall s.current.segment_ids
  rw [recvBatch_apply hns]
  refine ⟨?_, ?_, ?_, ?_, ?_⟩ <;>
    simp [hb, hc, hinv]

/-- C10 witness: a batch that only repeats ledger id 1 on a session with an
empty current utterance re-sends the empty text and refreshes activity. -/
theorem duplicate_batch_frame_witness :
    (recvBatch sessLedger [(1, "x")] 5).current.segments = sessLedger.current.segments ∧
    (recvBatch sessLedger [(1, "x")] 5).current.segment_ids = sessLedger.current.segment_ids ∧
    (recvBatch sessLedger [(1, "x")] 5).current.text = sessLedger.current.text ∧
    (recvBatch sessLedger [(1, "x")] 5).lastActivity = 5 ∧
    (recvBatch sessLedger [(1, "x")] 5).sent = sessLedger.sent ++ [sessLedger.current.text] :=
  duplicate_batch_frame [(1, "x")] 5 (by decide) rfl (by decide)

/-! ### C7 -/

/-- C7 counterexample: an inbound audio frame at t = 2.0 s does not update
the session's last-activity timestamp — the client-audio loop of main.py
lines 239-241 only forwards the bytes.  This refutes the claim that
last-activity is updated on every inbound audio frame. -/
theorem audio_frame_no_touch_cex :
    Reachable 20 sessAudio ∧ sessAudio.lastActivity = 10 ∧ sessAudio.lastActivity ≠ 20 :=
  ⟨Reachable.step sessA_reachable (by decide) (Step.audio 20), by decide, by decide⟩

/-- C7 (amended): last-activity is updated to the application time by every
applied provider segment batch — both the direct application and the one
after a silence split — but an inbound client audio frame leaves it
untouched. -/
theorem touch_on_transcript_only {s : SessionSt} (batch : SegMap) (now : Int)
    (hns : ¬(now - s.lastTranscriptTime > SILENCE_THRESHOLD ∧ pyStrip s.current.text ≠ "")) :
    (recvBatch s batch now).lastActivity = now ∧
    (∀ b a, s.pump = .splitting b a → (pumpResume s now).lastActivity = now) ∧
    (audioFrame s).lastActivity = s.lastActivity := by
  refine ⟨?_, ?_, rfl⟩
  · rw [recvBatch_apply hns]; rfl
  · intro b a hp
    rw [pumpResume_eq hp]
    rfl

/-- C7 witness: at the initial session with a batch at t = 0.5 s. -/
theorem touch_on_transcript_only_witness :
    (recvBatch initSession [(1, "a")] 5).lastActivity = 5 ∧
    (∀ b a, initSession.pump = .splitting b a →
      (pumpResume initSession 5).lastActivity = 5) ∧
    (audioFrame initSession).lastActivity = initSession.lastActivity :=
  touch_on_transcript_only [(1, "a")] 5 (by decide)

/-! ### C9 -/

/-- C9: `retrieve_memory_from_db` never raises.  It is a total function
returning at most `top_k` records; an embedding failure or a database
failure yields `[]`, exactly as an empty store with no matching memories
does — a caller cannot tell a store error from zero matches
(memory_service.py lines 71-123). -/
theorem retrieve_memory_total_and_bounded (store : List MemRow)
    (embed : Except String (List Int)) (dbOk : Bool) (uid : String)
    (mt : Option String) (df dt : Option Int) (k : Nat) :
    (retrieve_memory_from_db store embed dbOk uid mt df dt k).length ≤ k ∧
    (∀ e, embed = .error e → retrieve_memory_from_db store embed dbOk uid mt df dt k = []) ∧
    (dbOk = false → retrieve_memory_from_db store embed dbOk uid mt df dt k = []) ∧
    (store = [] → retrieve_memory_from_db store embed dbOk uid mt df dt k = []) := by
  cases embed with
  | error e =>
      refine ⟨?_, ?_, ?_, ?_⟩
      · simp [retrieve_memory_from_db]
      · intro _ _; rfl
      · intro _; rfl
      · intro _; rfl
  | ok qv =>
      cases dbOk with
      | false =>
          refine ⟨?_, ?_, ?_, ?_⟩
          · simp [retrieve_memory_from_db]
          · intro e h; exact Except.noConfusion h
          · intro _; rfl
          · intro _; rfl
      | true =>
          refine ⟨?_, ?_, ?_, ?_⟩
          · show (((sortByDist qv
                (store.filter (fun r => rowMatches r uid mt df dt))).take k).map
                  formatRow).length ≤ k
            rw [List.length_map, List.length_take]
            exact min_le_left _ _
          · intro e h; exact Except.noConfusion h
          · intro h; exact Bool.noConfusion h
          · intro h
            subst h
            show (((sortByDist qv
                (List.filter (fun r => rowMatches r uid mt df dt) [])).take k).map
                  formatRow) = []
            simp [sortByDist]

/-- C9 witness: a failing embedding call on an empty store yields the empty
list, within the `top_k` bound. -/
theorem retrieve_memory_total_and_bounded_witness :
    retrieve_memory_from_db [] (.error "db down") true "u" none none none 5 = [] ∧
    (retrieve_memory_from_db [] (.error "db down") true "u" none none none 5).length ≤ 5 :=
  ⟨(retrieve_memory_total_and_bounded [] (.error "db down") true "u" none none none 5).2.1
      "db down" rfl,
    (retrieve_memory_total_and_bounded [] (.error "db down") true "u" none none none 5).1⟩

/-! ### C8 -/

/-- C8: a turn whose result has intent `Retrieve` and an empty memory list
is answered with exactly the single fixed apology string, identically by
the non-streaming and the streaming reply generator, and the streaming
generator returns it whole — no incremental token stream is opened
(llm_service.py lines 235-241 and 279-286). -/
theorem retrieve_empty_fixed_apology (g : ChatOracle) (r : GcrInput) (t : String)
    (hintent : r.intent.getD "Neither" = "Retrieve")
    (hempty : r.results.getD [] = []) :
    generate_conversational_response g r t = .ok apologyReply ∧
    generate_conversational_response_streaming r t = .whole apologyReply := by
  unfold generate_conversational_response generate_conversational_response_streaming
  rw [hintent]
  rw [if_neg (by decide : ¬("Retrieve" : String) = "Neither"),
    if_neg (by decide : ¬("Retrieve" : String) = "Save"),
    if_pos rfl, if_neg (by decide : ¬("Retrieve" : String) = "Neither"),
    if_neg (by decide : ¬("Retrieve" : String) = "Save"), if_pos rfl]
  rw [hempty]
  exact ⟨rfl, rfl⟩

/-- C8 witness: the concrete zero-matches retrieval turn. -/
theorem retrieve_empty_fixed_apology_witness :
    generate_conversational_response chatBoom
      ⟨some "Retrieve", none, none, none, some "What did I think about last week?", some []⟩
      "What did I think about last week?" = .ok apologyReply ∧
    generate_conversational_response_streaming
      ⟨some "Retrieve", none, none, none, some "What did I think about last week?", some []⟩
      "What did I think about last week?" = .whole apologyReply :=
  retrieve_empty_fixed_apology chatBoom _ _ rfl rfl

/-! ### C6 -/

/-- C6 counterexample: with every turn-processing service call succeeding
but the reply-generation chat call raising, the watcher's per-turn pass
ends in the `exited` outcome — the exception is caught only by the
loop-level handler of main.py line 200, which terminates the
`finalize_after_pause` loop.  This refutes the claim that an exception
raised during reply generation is also contained within per-turn
processing. -/
theorem reply_exception_exits_watcher_cex :
    finalizeTurn oracleNeither chatBoom "hello" 0 = .exited "boom" ∧
    watcherAlive (finalizeTurn oracleNeither chatBoom "hello" 0) = false :=
  ⟨rfl, rfl⟩

/-- C6 (amended): every exception raised while classifying intent, saving,
extracting filters or retrieving memories is swallowed inside
`process_transcription` (a total function of the oracle) and routed into a
`Neither`-style fallback reply; whenever the reply-generation call itself
succeeds, the watcher loop continues — only a reply-generation exception
can end it. -/
theorem turn_service_errors_contained (o : TurnOracle) (g : ChatOracle)
    (text : String) (now : Int) (resp : String)
    (hreply : generate_conversational_response g
      (toGcrInput (process_transcription o text)) text = .ok resp) :
    finalizeTurn o g text now = .continued ⟨text, resp, now⟩ ∧
    watcherAlive (finalizeTurn o g text now) = true ∧
    (∀ e, (toGcrInput (PTResult.errorRes e)).intent.getD "Neither" = "Neither") := by
  refine ⟨?_, ?_, fun _ => rfl⟩
  · simp only [finalizeTurn]
    rw [hreply]
  · simp only [finalizeTurn, watcherAlive]
    rw [hreply]

/-- C6 witness: the intent classifier raises, yet the turn continues with
the conversational fallback produced by the `Neither` route. -/
theorem turn_service_errors_contained_witness :
    finalizeTurn oracleIntentDown chatOk "hi" 7 = .continued ⟨"hi", "Happy to chat!", 7⟩ ∧
    watcherAlive (finalizeTurn oracleIntentDown chatOk "hi" 7) = true ∧
    (∀ e, (toGcrInput (PTResult.errorRes e)).intent.getD "Neither" = "Neither") :=
  turn_service_errors_contained oracleIntentDown chatOk "hi" 7 "Happy to chat!" rfl

/-! ### C1 -/

/-- C1 counterexample: in the run `sessA → sessB → sessC` the silence split
abandons utterance 0 before the watcher ever finalizes it, so its claimed
id 1 never reaches the ledger, and the fresh utterance 1 claims id 1 again:
the claimed-id sets of two distinct Utterances of one session overlap, so
they are not pairwise disjoint as the claim states. -/
theorem claimed_ids_not_disjoint_cex :
    Reachable 52 sessC ∧ 1 ∈ sessC.current.segment_ids ∧
    ∃ u ∈ sessC.retired, u.id ≠ sessC.current.id ∧ 1 ∈ u.segment_ids :=
  ⟨sessC_reachable, by decide, by decide⟩

theorem mem_setAdd_of_mem {x y : Nat} {s : List Nat} (h : x ∈ s) : x ∈ setAdd s y := by
  unfold setAdd
  split
  · exact h
  · exact List.mem_append_left _ h

theorem mem_setUnion_left {x : Nat} :
    ∀ (b a : List Nat), x ∈ a → x ∈ setUnion a b
  | [], _, h => h
  | y :: rest, a, h => mem_setUnion_left rest (setAdd a y) (mem_setAdd_of_mem h)

theorem mem_keys_dictUpdateOne {x k : Nat} {v : String} {d : SegMap}
    (h : x ∈ (dictUpdateOne d k v).map Prod.fst) :
    x ∈ d.map Prod.fst ∨ x = k := by
  unfold dictUpdateOne at h
  split at h
  · rcases List.mem_map.1 h with ⟨q, hq, he⟩
    rcases List.mem_map.1 hq with ⟨p, hp, hpe⟩
    by_cases hpk : p.1 = k
    · right
      rw [if_pos hpk] at hpe
      rw [← hpe] at he
      exact he.symm
    · left
      rw [if_neg hpk] at hpe
      rw [← hpe] at he
      exact he ▸ List.mem_map_of_mem Prod.fst hp
  · rw [List.map_append] at h
    rcases List.mem_append.1 h with h | h
    · exact Or.inl h
    · right
      simpa using h

theorem mem_keys_dictUpdate {x : Nat} :
    ∀ (upd d : SegMap), x ∈ (dictUpdate d upd).map Prod.fst →
      x ∈ d.map Prod.fst ∨ x ∈ upd.map Prod.fst
  | [], _, h => Or.inl h
  | p :: rest, d, h => by
      have h' : x ∈ (dictUpdate (dictUpdateOne d p.1 p.2) rest).map Prod.fst := h
      rcases mem_keys_dictUpdate rest _ h' with h2 | h2
      · rcases mem_keys_dictUpdateOne h2 with h3 | h3
        · exact Or.inl h3
        · right
          simp [h3]
      · right
        rw [List.map_cons]
        exact List.mem_cons_of_mem _ h2

theorem not_mem_keys_buildNewSegments {x : Nat} {ledger : List Nat} (hx : x ∈ ledger)
    (batch : SegMap) : x ∉ (buildNewSegments batch ledger).map Prod.fst := by
  have key : ∀ (b acc : SegMap), x ∉ acc.map Prod.fst →
      x ∉ (b.foldl (fun acc p => if p.1 ∈ ledger then acc else dictUpdateOne acc p.1 p.2)
        acc).map Prod.fst := by
    intro b
    induction b with
    | nil => exact fun _ h => h
    | cons p rest ih =>
        intro acc hacc
        rw [List.foldl_cons]
        by_cases hp : p.1 ∈ ledger
        · rw [if_pos hp]
          exact ih acc hacc
        · rw [if_neg hp]
          refine ih _ ?_
          intro hmem
          rcases mem_keys_dictUpdateOne hmem with h3 | h3
          · exact hacc h3
          · exact hp (h3 ▸ hx)
  exact key batch [] (by simp)

theorem applySegments_ids_transfer {x : Nat} {ledger : List Nat} (hx : x ∈ ledger)
    (u : Utt) (batch : SegMap)
    (h : x ∈ (applySegments u batch ledger).segment_ids) : x ∈ u.segment_ids := by
  rw [applySegments_segment_ids] at h
  rcases mem_claimIds batch _ h with h2 | h2
  · exact h2
  · exact absurd hx h2

theorem applySegments_keys_transfer {x : Nat} {ledger : List Nat} (hx : x ∈ ledger)
    (u : Utt) (batch : SegMap)
    (h : x ∈ (applySegments u batch ledger).segments.map Prod.fst) :
    x ∈ u.segments.map Prod.fst := by
  rw [applySegments_segments] at h
  rcases mem_keys_dictUpdate _ _ h with h2 | h2
  · exact h2
  · exact absurd h2 (not_mem_keys_buildNewSegments hx batch)

theorem ledger_mono_step {t : Int} {s s' : SessionSt} (hstep : Step t s s') :
    ∀ x ∈ s.ledger, x ∈ s'.ledger := by
  cases hstep with
  | recv batch _ hpump =>
      intro x hx
      by_cases hc : t - s.lastTranscriptTime > SILENCE_THRESHOLD
          ∧ pyStrip s.current.text ≠ ""
      · by_cases hp : s.current.processed = false
        · rw [recvBatch_split hc hp]
          exact hx
        · rw [recvBatch_split_processed hc hp]
          exact hx
      · rw [recvBatch_apply hc]
        exact hx
  | resume _ batch arrival hpump =>
      intro x hx
      rw [pumpResume_eq hpump]
      exact hx
  | check _ hw =>
      intro x hx
      by_cases hc : t - s.lastActivity ≥ PAUSE_THRESHOLD ∧ s.current.processed = false
          ∧ pyStrip s.current.text ≠ ""
      · rw [watcherCheck_pos hc]
        exact hx
      · rw [watcherCheck_neg hc]
        exact hx
  | finish _ r uid txt hw =>
      intro x hx
      rw [watcherFinish_eq hw t r]
      exact mem_setUnion_left _ _ hx
  | audio =>
      exact fun _ hx => hx

theorem ledger_mono_run {s s' : SessionSt} (hrun : StepsFrom s s') :
    ∀ x ∈ s.ledger, x ∈ s'.ledger := by
  induction hrun with
  | refl => exact fun _ hx => hx
  | tail t hsteps hstep ih => exact fun x hx => ledger_mono_step hstep x (ih x hx)

theorem ledger_ids_step {t : Int} {s s' : SessionSt} (hstep : Step t s s')
    {x : Nat} (hx : x ∈ s.ledger) {u' : Utt} (hu' : u' ∈ allUtts s')
    (hmem : x ∈ u'.segment_ids ∨ x ∈ u'.segments.map Prod.fst) :
    ∃ u ∈ allUtts s, u.id = u'.id ∧
      (x ∈ u'.segment_ids → x ∈ u.segment_ids) ∧
      (x ∈ u'.segments.map Prod.fst → x ∈ u.segments.map Prod.fst) := by
  cases hstep with
  | recv batch _ hpump =>
      by_cases hc : t - s.lastTranscriptTime > SILENCE_THRESHOLD
          ∧ pyStrip s.current.text ≠ ""
      · by_cases hp : s.current.processed = false
        · rw [recvBatch_split hc hp] at hu'
          rcases List.mem_cons.1 hu' with h | h
          · subst h
            exact ⟨s.current, List.mem_cons_self _ _, rfl, fun h => h, fun h => h⟩
          · exact ⟨u', List.mem_cons_of_mem _ h, rfl, fun h => h, fun h => h⟩
        · rw [recvBatch_split_processed hc hp] at hu'
          simp only [allUtts_def, applyBlock_current, applyBlock_retired,
            retireAndFresh_current, retireAndFresh_retired, retireAndFresh_ledger] at hu'
          rcases List.mem_cons.1 hu' with h | h
          · subst h
            exfalso
            rcases hmem with h | h
            · simpa using applySegments_ids_transfer hx _ batch h
            · simpa using applySegments_keys_transfer hx _ batch h
          · rcases List.mem_append.1 h with h | h
            · exact ⟨u', List.mem_cons_of_mem _ h, rfl, fun h => h, fun h => h⟩
            · rw [List.mem_singleton] at h
              subst h
              exact ⟨s.current, List.mem_cons_self _ _, rfl, fun h => h, fun h => h⟩
      · rw [recvBatch_apply hc] at hu'
        simp only [allUtts_def, applyBlock_current, applyBlock_retired] at hu'
        rcases List.mem_cons.1 hu' with h | h
        · subst h
          exact ⟨s.current, List.mem_cons_self _ _, by simp,
            fun h => applySegments_ids_transfer hx _ batch h,
            fun h => applySegments_keys_transfer hx _ batch h⟩
        · exact ⟨u', List.mem_cons_of_mem _ h, rfl, fun h => h, fun h => h⟩
  | resume _ batch arrival hpump =>
      rw [pumpResume_eq hpump] at hu'
      simp only [allUtts_def, applyBlock_current, applyBlock_retired,
        retireAndFresh_current, retireAndFresh_retired, retireAndFresh_ledger] at hu'
      rcases List.mem_cons.1 hu' with h | h
      · subst h
        exfalso
        rcases hmem with h | h
        · simpa using applySegments_ids_transfer hx _ batch h
        · simpa using applySegments_keys_transfer hx _ batch h
      · rcases List.mem_append.1 h with h | h
        · exact ⟨u', List.mem_cons_of_mem _ h, rfl, fun h => h, fun h => h⟩
        · rw [List.mem_singleton] at h
          subst h
          exact ⟨s.current, List.mem_cons_self _ _, rfl, fun h => h, fun h => h⟩
  | check _ hw =>
      by_cases hc : t - s.lastActivity ≥ PAUSE_THRESHOLD ∧ s.current.processed = false
          ∧ pyStrip s.current.text ≠ ""
      · rw [watcherCheck_pos hc] at hu'
        rcases List.mem_cons.1 hu' with h | h
        · subst h
          exact ⟨s.current, List.mem_cons_self _ _, rfl, fun h => h, fun h => h⟩
        · exact ⟨u', List.mem_cons_of_mem _ h, rfl, fun h => h, fun h => h⟩
      · rw [watcherCheck_neg hc] at hu'
        exact ⟨u', hu', rfl, fun h => h, fun h => h⟩
  | finish _ r uid txt hw =>
      rw [watcherFinish_eq hw t r] at hu'
      simp only [allUtts_def, retireAndFresh_current, retireAndFresh_retired,
        setResponseById_current, setResponseById_retired] at hu'
      rcases List.mem_cons.1 hu' with h | h
      · subst h
        exfalso
        rcases hmem with h | h
        · simp at h
        · simp at h
      · rcases List.mem_append.1 h with h | h
        · rcases List.mem_map.1 h with ⟨v, hv, rfl⟩
          exact ⟨v, List.mem_cons_of_mem _ hv, (setRespUtt_id v uid r).symm,
            fun h => by simpa using h, fun h => by simpa using h⟩
        · rw [List.mem_singleton] at h
          subst h
          exact ⟨s.current, List.mem_cons_self _ _, (setRespUtt_id _ _ _).symm,
            fun h => by simpa using h, fun h => by simpa using h⟩
  | audio =>
      exact ⟨u', hu', rfl, fun h => h, fun h => h⟩

/-- C1 (amended): over every run of session steps starting from a state
whose ledger holds segment id `x`, the id remains in the ledger (the ledger
only grows) and is never subsequently added to the segment map or
claimed-id set of any Utterance: any utterance that holds `x` — in its
claimed-id set or among its segment-map keys — at the end of the run is an
utterance of the same sequence number that already held `x` in that same
structure at the start of the run, because segment application filters
every batch against the ledger.  The claim's pairwise-disjointness phrasing
is false, however: an utterance abandoned unfinalized by the silence split
never merges its ids into the ledger, so a later utterance can claim them
again (see the counterexample). -/
theorem ledger_ids_never_readded {s s' : SessionSt} (hrun : StepsFrom s s')
    {x : Nat} (hx : x ∈ s.ledger) :
    x ∈ s'.ledger ∧
    ∀ u' ∈ allUtts s',
      (x ∈ u'.segment_ids ∨ x ∈ u'.segments.map Prod.fst) →
      ∃ u ∈ allUtts s, u.id = u'.id ∧
        (x ∈ u'.segment_ids → x ∈ u.segment_ids) ∧
        (x ∈ u'.segments.map Prod.fst → x ∈ u.segments.map Prod.fst) := by
  refine ⟨ledger_mono_run hrun x hx, ?_⟩
  induction hrun with
  | refl => exact fun u' hu' _ => ⟨u', hu', rfl, fun h => h, fun h => h⟩
  | tail t hsteps hstep ih =>
      intro u' hu' hmem
      obtain ⟨v, hv, hid, f1, f2⟩ :=
        ledger_ids_step hstep (ledger_mono_run hsteps x hx) hu' hmem
      obtain ⟨u, hu, hid2, g1, g2⟩ := ih v hv (hmem.imp f1 f2)
      exact ⟨u, hu, hid2.trans hid, fun h => g1 (f1 h), fun h => g2 (f2 h)⟩

/-- C1 witness: a one-step run in which in-ledger id 5 arrives again — it
stays in the ledger and its only holder, in claimed ids and segment-map
keys alike, is the utterance that already claimed it. -/
theorem ledger_ids_never_readded_witness :
    5 ∈ (recvBatch sessClaimed [(5, "y")] 1).ledger ∧
    ∀ u' ∈ allUtts (recvBatch sessClaimed [(5, "y")] 1),
      (5 ∈ u'.segment_ids ∨ 5 ∈ u'.segments.map Prod.fst) →
      ∃ u ∈ allUtts sessClaimed, u.id = u'.id ∧
        (5 ∈ u'.segment_ids → 5 ∈ u.segment_ids) ∧
        (5 ∈ u'.segments.map Prod.fst → 5 ∈ u.segments.map Prod.fst) :=
  ledger_ids_never_readded
    (StepsFrom.tail 1 (StepsFrom.refl sessClaimed) (Step.recv [(5, "y")] 1 rfl))
    (by decide)

/-! ### C2 -/

/-- C2 counterexample: after the silence split of `sessA → sessB → sessC`
resumes without the watcher having run, the abandoned utterance 0 and the
fresh utterance 1 both have `processed = false`: two distinct Utterances of
one session are unprocessed at one reachable state. -/
theorem two_unprocessed_utterances_cex :
    Reachable 52 sessC ∧ sessC.current.processed = false ∧
    ∃ u ∈ sessC.retired, u.processed = false ∧ u.id ≠ sessC.current.id :=
  ⟨sessC_reachable, by decide, by decide⟩

theorem processedInv_init : processedInv initSession := by
  constructor
  · intro u hu
    cases hu
  · intro uid txt hw
    exact WatcherSt.noConfusion hw

theorem processedInv_step {s s' : SessionSt} (hstep : TameStep s s')
    (h : processedInv s) : processedInv s' := by
  obtain ⟨hret, hwat⟩ := h
  cases hstep with
  | recv batch now hp hq =>
      rw [recvBatch_apply hq]
      refine ⟨fun u hu => hret u hu, fun uid txt hw => ?_⟩
      obtain ⟨h1, h2⟩ := hwat uid txt hw
      constructor
      · rw [applyBlock_current, applySegments_id]
        exact h1
      · rw [applyBlock_current, applySegments_processed]
        exact h2
  | check now hwidle =>
      by_cases hc : now - s.lastActivity ≥ PAUSE_THRESHOLD ∧ s.current.processed = false
          ∧ pyStrip s.current.text ≠ ""
      · rw [watcherCheck_pos hc]
        refine ⟨fun u hu => hret u hu, fun uid txt hw => ?_⟩
        cases hw
        exact ⟨rfl, rfl⟩
      · rw [watcherCheck_neg hc]
        exact ⟨hret, hwat⟩
  | finish now r uid txt hw =>
      rw [watcherFinish_eq hw now r]
      obtain ⟨hcid, hcproc⟩ := hwat uid txt hw
      refine ⟨?_, ?_⟩
      · intro u hu
        rcases List.mem_append.1 hu with h | h
        · rcases List.mem_map.1 h with ⟨v, hv, rfl⟩
          rw [setRespUtt_processed]
          exact hret v hv
        · rw [List.mem_singleton] at h
          subst h
          show (setRespUtt s.current uid r).processed = true
          rw [setRespUtt_processed]
          exact hcproc
      · intro uid' txt' hw'
        exact WatcherSt.noConfusion hw'
  | audio =>
      exact ⟨hret, hwat⟩

theorem processedInv_reachableTame {s : SessionSt} (h : ReachableTame s) :
    processedInv s := by
  induction h with
  | init => exact processedInv_init
  | step _ hstep ih => exact processedInv_step hstep ih

/-- C2 (amended): in every session state reachable without the silence
split ever firing, at most one Utterance has `processed = false` (every
superseded utterance is processed, and only the current one can be open).
The claim is false over all interleavings: the silence-split path can
supersede a never-finalized utterance, after which two Utterances with
`processed = false` coexist (see the counterexample). -/
theorem at_most_one_unprocessed_tame {s : SessionSt} (h : ReachableTame s) :
    ((s.current :: s.retired).filter (fun u => !u.processed)).length ≤ 1 := by
  have hp := processedInv_reachableTame h
  have hr : s.retired.filter (fun u => !u.processed) = [] := by
    rw [List.filter_eq_nil_iff]
    intro u hu
    simp [hp.1 u hu]
  rw [List.filter_cons]
  split
  · rw [hr]
    simp
  · rw [hr]
    simp

/-- C2 witness: the property at the concrete tame run that applied one
batch to utterance 0. -/
theorem at_most_one_unprocessed_tame_witness :
    ((sessA.current :: sessA.retired).filter (fun u => !u.processed)).length ≤ 1 :=
  at_most_one_unprocessed_tame
    (ReachableTame.step ReachableTame.init (TameStep.recv [(1, "hi")] 10 rfl (by decide)))

/-! ### C3 -/

/-- C3 counterexample: segments arriving out of id order (id 2 then id 1,
no silence gap between them) leave the utterance text in arrival order
`"b a"`, while the ascending-segment-ID concatenation of the same segment
map is `"a b"`: the derived text does not equal the ascending-id
concatenation. -/
theorem text_not_ascending_id_order_cex :
    Reachable 15 sessOutOfOrder ∧
    sessOutOfOrder.current.text = "b a" ∧
    specOrderedText sessOutOfOrder.current.segments = "a b" ∧
    sessOutOfOrder.current.text ≠ specOrderedText sessOutOfOrder.current.segments :=
  ⟨sessOutOfOrder_reachable, by decide, by decide, by decide⟩

theorem textInv_init : textInv initSession :=
  ⟨rfl, fun _ hu => by cases hu⟩

theorem textInv_step {t : Int} {s s' : SessionSt} (hstep : Step t s s')
    (h : textInv s) : textInv s' := by
  obtain ⟨hcur, hret⟩ := h
  cases hstep with
  | recv batch _ hpump =>
      by_cases hc : t - s.lastTranscriptTime > SILENCE_THRESHOLD
          ∧ pyStrip s.current.text ≠ ""
      · by_cases hp : s.current.processed = false
        · rw [recvBatch_split hc hp]
          exact ⟨hcur, hret⟩
        · rw [recvBatch_split_processed hc hp]
          refine ⟨rfl, fun u hu => ?_⟩
          rcases List.mem_append.1 hu with h | h
          · exact hret u h
          · rw [List.mem_singleton] at h
            subst h
            exact hcur
      · rw [recvBatch_apply hc]
        exact ⟨rfl, fun u hu => hret u hu⟩
  | resume _ batch arrival hpump =>
      rw [pumpResume_eq hpump]
      refine ⟨rfl, fun u hu => ?_⟩
      rcases List.mem_append.1 hu with h | h
      · exact hret u h
      · rw [List.mem_singleton] at h
        subst h
        exact hcur
  | check _ hw =>
      by_cases hc : t - s.lastActivity ≥ PAUSE_THRESHOLD ∧ s.current.processed = false
          ∧ pyStrip s.current.text ≠ ""
      · rw [watcherCheck_pos hc]
        exact ⟨hcur, hret⟩
      · rw [watcherCheck_neg hc]
        exact ⟨hcur, hret⟩
  | finish _ r uid txt hw =>
      rw [watcherFinish_eq hw t r]
      refine ⟨rfl, fun u hu => ?_⟩
      rcases List.mem_append.1 hu with h | h
      · rcases List.mem_map.1 h with ⟨v, hv, rfl⟩
        rw [setRespUtt_text, setRespUtt_segments]
        exact hret v hv
      · rw [List.mem_singleton] at h
        subst h
        show (setRespUtt s.current uid r).text
          = renderText (setRespUtt s.current uid r).segments
        rw [setRespUtt_text, setRespUtt_segments]
        exact hcur
  | audio =>
      exact ⟨hcur, hret⟩

/-- C3 (amended): in every reachable session state, every Utterance's
derived text equals the space-separated concatenation of its segment texts
in the segment map's *insertion order* — the order of each id's first
arrival, text revisions updating in place — rather than in ascending
segment-ID order (refuted by the counterexample; the two orders agree only
when segment ids first arrive in ascending order). -/
theorem utterance_text_insertion_order {t : Int} {s : SessionSt} (h : Reachable t s) :
    s.current.text = renderText s.current.segments ∧
    ∀ u ∈ s.retired, u.text = renderText u.segments := by
  induction h with
  | init => exact textInv_init
  | step _ _ hstep ih => exact textInv_step hstep ih

/-- C3 witness: the law at the out-of-order run. -/
theorem utterance_text_insertion_order_witness :
    sessOutOfOrder.current.text = renderText sessOutOfOrder.current.segments ∧
    ∀ u ∈ sessOutOfOrder.retired, u.text = renderText u.segments :=
  utterance_text_insertion_order sessOutOfOrder_reachable

/-! ### C4 -/

/-- C4 counterexample: batches at t = 1.0 s and t = 5.0 s (gap 4 s, above
the 3 s silence threshold, intervening text non-blank).  The pump only
backdates the activity clock and sleeps; in the interleaving where the
watcher does not run during that window, the new batch is attributed to
utterance 1 while utterance 0 was never finalized: no dispatch ever
happened (history empty, watcher idle) and utterance 0 is superseded with
`processed = false`.  This refutes the claim that utterance N is finalized
and dispatched before any segment of the new batch is attributed to
utterance N+1. -/
theorem split_without_finalize_cex :
    Reachable 52 sessC ∧
    sessB.pump = PumpSt.splitting [(1, "hello")] 50 ∧
    sessC.current.segments = [(1, "hello")] ∧
    sessC.history = [] ∧ sessC.watcher = WatcherSt.idle ∧
    ∃ u ∈ sessC.retired, u.id = 0 ∧ u.processed = false :=
  ⟨sessC_reachable, by decide, by decide, by decide, by decide, by decide⟩

/-- C4 (amended): the silence split does increment the counter and create
utterance N+1 before the held batch is applied (to N+1 exclusively), and it
backdates the activity clock so a watcher poll at any instant from the
batch's arrival onwards finalizes N; utterance N is therefore finalized
before attribution *provided* such a poll runs during the pump's 0.2 s
wait — which the code does not itself guarantee (see the counterexample). -/
theorem split_finalizes_when_watcher_runs {s : SessionSt} (batch : SegMap)
    (now now1 now2 : Int)
    (_hpump : s.pump = .idle) (_hwatch : s.watcher = .idle)
    (hgap : now - s.lastTranscriptTime > SILENCE_THRESHOLD)
    (htxt : pyStrip s.current.text ≠ "")
    (hnp : s.current.processed = false)
    (hle : now ≤ now1) :
    (watcherCheck (recvBatch s batch now) now1).current.processed = true ∧
    (watcherCheck (recvBatch s batch now) now1).watcher
      = .finalizing s.current.id s.current.text ∧
    (pumpResume (watcherCheck (recvBatch s batch now) now1) now2).counter
      = s.counter + 1 ∧
    (pumpResume (watcherCheck (recvBatch s batch now) now1) now2).current.id
      = s.counter + 1 ∧
    (∃ u ∈ (pumpResume (watcherCheck (recvBatch s batch now) now1) now2).retired,
      u.id = s.current.id ∧ u.processed = true) ∧
    (pumpResume (watcherCheck (recvBatch s batch now) now1) now2).current.segments
      = (applySegments (freshUtt (s.counter + 1)) batch s.ledger).segments := by
  have hc2 : now1 - (now - PAUSE_THRESHOLD - 1) ≥ PAUSE_THRESHOLD := by
    unfold PAUSE_THRESHOLD
    omega
  rw [recvBatch_split ⟨hgap, htxt⟩ hnp]
  rw [watcherCheck_pos (by exact ⟨hc2, hnp, htxt⟩)]
  rw [pumpResume_eq rfl now2]
  exact ⟨rfl, rfl, rfl, rfl,
    ⟨_, List.mem_append.2 (Or.inr (List.mem_singleton.2 rfl)), rfl, rfl⟩, rfl⟩

/-- C4 witness: the guaranteed-window scenario at concrete times 5.0 s,
5.1 s, 5.2 s on top of `sessA`. -/
theorem split_finalizes_when_watcher_runs_witness :
    (watcherCheck (recvBatch sessA [(2, "yo")] 50) 51).current.processed = true ∧
    (watcherCheck (recvBatch sessA [(2, "yo")] 50) 51).watcher
      = .finalizing sessA.current.id sessA.current.text ∧
    (pumpResume (watcherCheck (recvBatch sessA [(2, "yo")] 50) 51) 52).counter
      = sessA.counter + 1 ∧
    (pumpResume (watcherCheck (recvBatch sessA [(2, "yo")] 50) 51) 52).current.id
      = sessA.counter + 1 ∧
    (∃ u ∈ (pumpResume (watcherCheck (recvBatch sessA [(2, "yo")] 50) 51) 52).retired,
      u.id = sessA.current.id ∧ u.processed = true) ∧
    (pumpResume (watcherCheck (recvBatch sessA [(2, "yo")] 50) 51) 52).current.segments
      = (applySegments (freshUtt (sessA.counter + 1)) [(2, "yo")] sessA.ledger).segments :=
  split_finalizes_when_watcher_runs [(2, "yo")] 50 51 52 rfl rfl
    (by decide) (by decide) (by decide) (by decide)

end Jarvis
